import Mathlib

/-!
Verification of the `utils::UltraHash` dynamic perfect-hash structure
(`src/UltraHash.h` of the ai-utils repository).

The header provides the data members (`m_b`, `m_M_sets`), the inline member
functions `set_index` and `index`, and the declarations of `initialize` and
`create_set`.  The bodies of `initialize` and `create_set`, and the `parity`
helper from `parity.h`, are not among the provided sources; those parts are
modelled from the specification and are marked as such in their doc comments.

Machine integers (`uint64_t`, `int`) are embedded as `Nat`; every value
produced by the embedded operations is small enough that no overflow is
possible (`index` is below 256), so no explicit `% 2^64` is needed on the
lookup path.
-/

namespace UltraHashModel

/-- Modelled from the spec: the repository includes `parity.h`, which is not
among the provided sources.  The spec glossary defines parity as the
XOR-reduction of all set bits of a value (0 if an even number of bits are set,
1 if odd).  `parityAux f x` XORs the low `f` binary digits of `x`; with fuel 64
this covers every 64-bit value. -/
def parityAux : Nat → Nat → Nat
  | 0, _ => 0
  | f + 1, x => (x % 2) ^^^ parityAux f (x / 2)

/-- Modelled from the spec: parity of a 64-bit value (see `parityAux`). -/
def parity (x : Nat) : Nat := parityAux 64 x

/-- State of a `utils::UltraHash` object: the two test-bit masks `m_b`
(`std::array<uint64_t, max_test_bits>` with `max_test_bits = 2`) and the four
sets of six 64-bit mask rows `m_M_sets`
(`std::array<std::array<uint64_t, 6>, 1 << max_test_bits>`). -/
structure UltraHash where
  m_b : Fin 2 → Nat
  m_M_sets : Fin 4 → Fin 6 → Nat

instance : DecidableEq UltraHash := fun a b =>
  decidable_of_iff (a.m_b = b.m_b ∧ a.m_M_sets = b.m_M_sets)
    (by cases a; cases b; simp)

/-- Embeds `UltraHash::set_index`: starting from `si = 0`, `s_bit = 1`, for each
mask in `m_b` set the bit `s_bit` of `si` when `key & mask` is nonzero, then
double `s_bit`.  The C++ loop `for (uint64_t mask : m_b)` is the fold over the
two indices of `m_b`. -/
def set_index (st : UltraHash) (key : Nat) : Nat :=
  (([0, 1] : List (Fin 2)).foldl
    (fun (p : Nat × Nat) j =>
      (if st.m_b j &&& key ≠ 0 then p.1 ||| p.2 else p.1, p.2 <<< 1))
    ((0, 1) : Nat × Nat)).1

/-- Mask rows of the partition selected for `key`, i.e. `m_M_sets[set_index(key)]`.
`set_index` is always below 4 (theorem `set_index_lt_four` below), so the
reduction modulo 4 used to form the `Fin 4` index is the identity; it only makes
the array access total. -/
def rowsOf (st : UltraHash) (key : Nat) : Fin 6 → Nat :=
  st.m_M_sets ⟨set_index st key % 4, Nat.mod_lt _ (by omega)⟩

/-- The 6-bit code computed by the inner loop of `UltraHash::index` from six
mask rows `M`: starting from 0, OR in `parity(M[i] & key) << i` for
`i = 0, …, 5`. -/
def codeRows (M : Fin 6 → Nat) (key : Nat) : Nat :=
  (([0, 1, 2, 3, 4, 5] : List (Fin 6)).foldl
    (fun idx i => idx ||| parity (M i &&& key) <<< (i : Nat)) 0)

/-- Embeds `UltraHash::index`: `si = set_index(key)`, `s = m_M_sets[si]`,
`idx = si << 6`, then for `i = 0, …, 5` OR in `parity(s[i] & key) << i`. -/
def index (st : UltraHash) (key : Nat) : Nat :=
  (([0, 1, 2, 3, 4, 5] : List (Fin 6)).foldl
    (fun idx i => idx ||| parity (rowsOf st key i &&& key) <<< (i : Nat))
    (set_index st key <<< 6))

/-- Models one call of the `const`-qualified member function `UltraHash::index`:
the call produces the return value together with the object state after the
call (unchanged, since the member function is `const` and mutates nothing). -/
def index_call (st : UltraHash) (key : Nat) : Nat × UltraHash :=
  (index st key, st)

/-- Transcribes the spec's formula (§4.3): `selector(key)` is the 2-bit value
whose bit `i` is 1 iff `key & m_b[i]` is nonzero.  Stated from the spec's words
for comparison against the source's `set_index`. -/
def selector (st : UltraHash) (key : Nat) : Nat :=
  (if st.m_b 0 &&& key ≠ 0 then 1 else 0) + (if st.m_b 1 &&& key ≠ 0 then 2 else 0)

/-- Transcribes the spec's formula (§4.2): the 6-bit value whose bit `i` is
`parity(M[i] & key)`.  Stated from the spec's words for comparison against the
inner loop of the source's `index`. -/
def codeBits (M : Fin 6 → Nat) (key : Nat) : Nat :=
  ∑ i : Fin 6, parity (M i &&& key) * 2 ^ (i : Nat)

/-- Construction error kinds, modelled from the spec (§7). -/
inductive ConstructionError where
  | KeySetTooLarge
  | ConstructionFailure
  deriving DecidableEq

/-- Result of a construction call, modelled from the spec (§6):
either a table size or a construction error. -/
inductive InitResult where
  | ok (table_size : Nat)
  | err (e : ConstructionError)
  deriving DecidableEq

/-- Whether a construction result is a success. -/
def InitResult.isOk : InitResult → Bool
  | .ok _ => true
  | .err _ => false

/-- Table size of a successful construction result (0 for an error). -/
def InitResult.size : InitResult → Nat
  | .ok ts => ts
  | .err _ => 0

/-- Modelled from the spec (§4.1): minimum number of test bits required for
`n` keys — 0 for `n ≤ 64`, 1 for `64 < n ≤ 128`, 2 for `128 < n`. -/
def minTestBits (n : Nat) : Nat :=
  if n ≤ 64 then 0 else if n ≤ 128 then 1 else 2

/-- Modelled from the spec (§4.1 and §8): constraint on the number `k` of test
bits used for `n` keys.  At least the minimum is used; for `n ≤ 64` the
zero-test-bit attempt may fail and fall back to `k = 1` or `k = 2`, while for
`n > 64` the tier is exact ("tier boundaries are exact", §8). -/
def tierOK (n k : Nat) : Prop :=
  minTestBits n ≤ k ∧ (64 < n → k = minTestBits n)

/-- Modelled from the spec: postcondition of a successful construction with `k`
test bits (the body of `UltraHash::initialize` is not among the provided
sources).  Per §3, §4.1 and §4.2: at most 2 test bits; at most 256 keys; table
size `2^k * 64`; the first `k` entries of `m_b` are single-bit masks and the
remaining entries are zero; when both test bits are used they are distinct bit
positions; every partition holds at most 64 keys; and within a partition the
six mask rows make the 6-bit code distinct for every key. -/
def initOK (keys : List Nat) (k : Nat) (st : UltraHash) (ts : Nat) : Prop :=
  k ≤ 2 ∧
  keys.length ≤ 256 ∧
  ts = 2 ^ k * 64 ∧
  (∀ j : Fin 2,
    ((j : Nat) < k → ∃ p : Fin 64, st.m_b j = 2 ^ (p : Nat)) ∧
    (k ≤ (j : Nat) → st.m_b j = 0)) ∧
  (k = 2 → st.m_b 0 ≠ st.m_b 1) ∧
  (∀ si : Fin 4, (keys.filter fun x => set_index st x == (si : Nat)).length ≤ 64) ∧
  (∀ a ∈ keys, ∀ b ∈ keys, a ≠ b → set_index st a = set_index st b →
    codeRows (rowsOf st a) a ≠ codeRows (rowsOf st b) b)

/-- Modelled from the spec (§4.1, §6, §7): one call of `UltraHash::initialize`
as a relation between the pre-call state `pre`, the caller's key vector `keys`,
the post-call state `post`, the result `r`, and the caller's key vector after
the call `keysAfter`.  The caller's vector is passed by `const` reference and
the search works on its own scratch copy, so `keysAfter = keys` always.  An
input of more than 256 keys is rejected as `KeySetTooLarge`; on any failure the
state is unchanged (§7 atomicity); on success the postcondition `initOK` holds
for some admissible number of test bits. -/
def initRel (pre : UltraHash) (keys : List Nat) (post : UltraHash)
    (r : InitResult) (keysAfter : List Nat) : Prop :=
  keysAfter = keys ∧
  (256 < keys.length → post = pre ∧ r = InitResult.err ConstructionError.KeySetTooLarge) ∧
  (r = InitResult.err ConstructionError.KeySetTooLarge → 256 < keys.length) ∧
  (r.isOk = false → post = pre) ∧
  (r.isOk = true → keys.length ≤ 256 ∧
    ∃ k : Fin 3, tierOK keys.length (k : Nat) ∧ initOK keys (k : Nat) post r.size)

instance (n k : Nat) : Decidable (tierOK n k) := by
  unfold tierOK minTestBits
  infer_instance

instance (keys : List Nat) (k : Nat) (st : UltraHash) (ts : Nat) :
    Decidable (initOK keys k st ts) := by
  unfold initOK
  infer_instance

instance (pre : UltraHash) (keys : List Nat) (post : UltraHash)
    (r : InitResult) (ka : List Nat) : Decidable (initRel pre keys post r ka) := by
  unfold initRel
  infer_instance

/-- A zero state: both test-bit masks zero (as after default construction) and
all mask rows zero.  Concrete state used to instantiate theorems. -/
def stZero : UltraHash := ⟨fun _ => 0, fun _ _ => 0⟩

/-- A concrete constructed state: no test bits in use, and in every set only
row 0 carries the mask 1, so the code of a key is its lowest bit. -/
def stOneBit : UltraHash := ⟨fun _ => 0, fun _ i => if i = 0 then 1 else 0⟩

/-- Closed form of `set_index`: unfolding the two-step fold. -/
theorem set_index_eq (st : UltraHash) (key : Nat) :
    set_index st key =
      (if st.m_b 0 &&& key ≠ 0 then 1 else 0) +
        (if st.m_b 1 &&& key ≠ 0 then 2 else 0) := by
  by_cases h0 : st.m_b 0 &&& key = 0 <;> by_cases h1 : st.m_b 1 &&& key = 0 <;>
    simp [set_index, h0, h1]

/-- The source's `set_index` agrees with the spec's `selector` formula. -/
theorem set_index_eq_selector (st : UltraHash) (key : Nat) :
    set_index st key = selector st key :=
  set_index_eq st key

/-- The value of `set_index` is always below 4. -/
theorem set_index_lt_four (st : UltraHash) (key : Nat) : set_index st key < 4 := by
  rw [set_index_eq]
  split <;> split <;> omega

/-- XOR of two bits is a bit. -/
theorem xor_le_one {a b : Nat} (ha : a ≤ 1) (hb : b ≤ 1) : a ^^^ b ≤ 1 := by
  interval_cases a <;> interval_cases b <;> decide

/-- The fueled parity is a single bit. -/
theorem parityAux_le_one (f x : Nat) : parityAux f x ≤ 1 := by
  induction f generalizing x with
  | zero => simp [parityAux]
  | succ f ih => exact xor_le_one (by omega) (ih (x / 2))

/-- `parity` returns 0 or 1. -/
theorem parity_le_one (x : Nat) : parity x ≤ 1 :=
  parityAux_le_one 64 x

/-- The low bit of an XOR is the XOR of the low bits. -/
theorem mod_two_xor (x y : Nat) : (x ^^^ y) % 2 = x % 2 ^^^ y % 2 := by
  rw [← Nat.and_one_is_mod, ← Nat.and_one_is_mod, ← Nat.and_one_is_mod,
    Nat.and_xor_distrib_right]

/-- Rearrangement of a fourfold XOR. -/
theorem xor_mix (a b c d : Nat) : (a ^^^ b) ^^^ (c ^^^ d) = (a ^^^ c) ^^^ (b ^^^ d) := by
  apply Nat.eq_of_testBit_eq
  intro i
  simp only [Nat.testBit_xor]
  cases a.testBit i <;> cases b.testBit i <;> cases c.testBit i <;> cases d.testBit i <;>
    decide

/-- The fueled parity is additive over XOR (GF(2)-linearity of parity). -/
theorem parityAux_xor (f x y : Nat) :
    parityAux f (x ^^^ y) = parityAux f x ^^^ parityAux f y := by
  induction f generalizing x y with
  | zero => simp [parityAux]
  | succ f ih =>
    show (x ^^^ y) % 2 ^^^ parityAux f ((x ^^^ y) / 2) = _
    rw [mod_two_xor, Nat.xor_div_two, ih]
    exact xor_mix _ _ _ _

/-- `parity` is additive over XOR. -/
theorem parity_xor (x y : Nat) : parity (x ^^^ y) = parity x ^^^ parity y :=
  parityAux_xor 64 x y

/-- `parity 0 = 0`. -/
theorem parity_zero : parity 0 = 0 := rfl

/-- Unfolding of the six-step fold of `codeRows`. -/
theorem codeRows_unfold (M : Fin 6 → Nat) (key : Nat) :
    codeRows M key =
      0 ||| parity (M 0 &&& key) <<< 0 ||| parity (M 1 &&& key) <<< 1 |||
        parity (M 2 &&& key) <<< 2 ||| parity (M 3 &&& key) <<< 3 |||
        parity (M 4 &&& key) <<< 4 ||| parity (M 5 &&& key) <<< 5 := rfl

/-- Unfolding of the six-step fold of `index`. -/
theorem index_unfold_raw (st : UltraHash) (key : Nat) :
    index st key =
      set_index st key <<< 6 ||| parity (rowsOf st key 0 &&& key) <<< 0 |||
        parity (rowsOf st key 1 &&& key) <<< 1 ||| parity (rowsOf st key 2 &&& key) <<< 2 |||
        parity (rowsOf st key 3 &&& key) <<< 3 ||| parity (rowsOf st key 4 &&& key) <<< 4 |||
        parity (rowsOf st key 5 &&& key) <<< 5 := rfl

/-- `index` is the selector shifted left by 6, ORed with the 6-bit code of the
selected partition's rows. -/
theorem index_eq_or (st : UltraHash) (key : Nat) :
    index st key = set_index st key <<< 6 ||| codeRows (rowsOf st key) key := by
  rw [index_unfold_raw, codeRows_unfold]
  simp [Nat.or_assoc]

/-- An OR-accumulation of six single bits at positions 0–5 equals the weighted
sum of those bits. -/
theorem orchain_eq_sum {p0 p1 p2 p3 p4 p5 : Nat}
    (h0 : p0 ≤ 1) (h1 : p1 ≤ 1) (h2 : p2 ≤ 1) (h3 : p3 ≤ 1) (h4 : p4 ≤ 1) (h5 : p5 ≤ 1) :
    0 ||| p0 <<< 0 ||| p1 <<< 1 ||| p2 <<< 2 ||| p3 <<< 3 ||| p4 <<< 4 ||| p5 <<< 5 =
      p0 + p1 * 2 + p2 * 4 + p3 * 8 + p4 * 16 + p5 * 32 := by
  interval_cases p0 <;> interval_cases p1 <;> interval_cases p2 <;> interval_cases p3 <;>
    interval_cases p4 <;> interval_cases p5 <;> decide

/-- `codeRows` as the weighted sum of its six parity bits. -/
theorem codeRows_eq_sum (M : Fin 6 → Nat) (key : Nat) :
    codeRows M key =
      parity (M 0 &&& key) + parity (M 1 &&& key) * 2 + parity (M 2 &&& key) * 4 +
        parity (M 3 &&& key) * 8 + parity (M 4 &&& key) * 16 + parity (M 5 &&& key) * 32 := by
  rw [codeRows_unfold]
  exact orchain_eq_sum (parity_le_one _) (parity_le_one _) (parity_le_one _)
    (parity_le_one _) (parity_le_one _) (parity_le_one _)

/-- The 6-bit code is always below 64. -/
theorem codeRows_lt (M : Fin 6 → Nat) (key : Nat) : codeRows M key < 64 := by
  rw [codeRows_eq_sum]
  have h0 := parity_le_one (M 0 &&& key)
  have h1 := parity_le_one (M 1 &&& key)
  have h2 := parity_le_one (M 2 &&& key)
  have h3 := parity_le_one (M 3 &&& key)
  have h4 := parity_le_one (M 4 &&& key)
  have h5 := parity_le_one (M 5 &&& key)
  omega

/-- The source's `codeRows` agrees with the spec's `codeBits` formula. -/
theorem codeRows_eq_codeBits (M : Fin 6 → Nat) (key : Nat) :
    codeRows M key = codeBits M key := by
  rw [codeRows_eq_sum, codeBits, Fin.sum_univ_six]
  norm_num [show ((3 : Fin 6) : Nat) = 3 from rfl, show ((4 : Fin 6) : Nat) = 4 from rfl,
    show ((5 : Fin 6) : Nat) = 5 from rfl]

/-- OR with a value shifted past `n` bits is addition, for a low part below `2^n`. -/
theorem shift_or_eq_add {y : Nat} (x n : Nat) (hy : y < 2 ^ n) :
    x <<< n ||| y = x * 2 ^ n + y := by
  rw [Nat.shiftLeft_eq, Nat.mul_comm x (2 ^ n), ← Nat.mul_add_lt_is_or hy]

/-- `index` decomposes additively: 64 times the selector plus the 6-bit code. -/
theorem index_eq_add (st : UltraHash) (key : Nat) :
    index st key = set_index st key * 64 + codeRows (rowsOf st key) key := by
  rw [index_eq_or, shift_or_eq_add _ 6 (codeRows_lt _ _)]
  norm_num

/-- When the test-bit masks from position `k` on are zero, the selector is
below `2^k`. -/
theorem set_index_lt_two_pow {st : UltraHash} {k : Nat} (hk : k ≤ 2)
    (hz : ∀ j : Fin 2, k ≤ (j : Nat) → st.m_b j = 0) (key : Nat) :
    set_index st key < 2 ^ k := by
  rw [set_index_eq]
  interval_cases k
  · have h0 := hz 0 (by simp)
    have h1 := hz 1 (by simp)
    simp [h0, h1]
  · have h1 := hz 1 (by simp)
    rw [h1]
    simp only [Nat.zero_and, ne_eq, not_true_eq_false, if_neg, ite_false]
    split <;> omega
  · split <;> split <;> omega

/-- Left shift distributes over XOR. -/
theorem xor_shiftLeft (x y n : Nat) : (x ^^^ y) <<< n = x <<< n ^^^ y <<< n := by
  apply Nat.eq_of_testBit_eq
  intro j
  simp only [Nat.testBit_shiftLeft, Nat.testBit_xor]
  by_cases h : n ≤ j <;> simp [h]

/-- Left-commutativity of XOR on `Nat`, for AC-normalization. -/
theorem xor_left_comm (a b c : Nat) : a ^^^ (b ^^^ c) = b ^^^ (a ^^^ c) := by
  rw [← Nat.xor_assoc, Nat.xor_comm a b, Nat.xor_assoc]

/-- An OR-accumulation of six single bits at positions 0–5 equals the
XOR-accumulation of the same shifted bits (the positions are disjoint). -/
theorem orchain_eq_xorchain {p0 p1 p2 p3 p4 p5 : Nat}
    (h0 : p0 ≤ 1) (h1 : p1 ≤ 1) (h2 : p2 ≤ 1) (h3 : p3 ≤ 1) (h4 : p4 ≤ 1) (h5 : p5 ≤ 1) :
    0 ||| p0 <<< 0 ||| p1 <<< 1 ||| p2 <<< 2 ||| p3 <<< 3 ||| p4 <<< 4 ||| p5 <<< 5 =
      p0 <<< 0 ^^^ p1 <<< 1 ^^^ p2 <<< 2 ^^^ p3 <<< 3 ^^^ p4 <<< 4 ^^^ p5 <<< 5 := by
  interval_cases p0 <;> interval_cases p1 <;> interval_cases p2 <;> interval_cases p3 <;>
    interval_cases p4 <;> interval_cases p5 <;> decide

/-- Range of `index` under the success postcondition: every key, also one that
was not in the construction input, maps below the table size. -/
theorem index_lt_of_initOK {keys : List Nat} {k : Nat} {st : UltraHash} {ts : Nat}
    (h : initOK keys k st ts) (key : Nat) : index st key < ts := by
  obtain ⟨hk2, -, hts, hmask, -, -, -⟩ := h
  have hsi := set_index_lt_two_pow hk2 (fun j hj => (hmask j).2 hj) key
  have hc := codeRows_lt (rowsOf st key) key
  rw [index_eq_add, hts]
  have hcase : k = 0 ∨ k = 1 ∨ k = 2 := by omega
  rcases hcase with hk | hk | hk <;> subst hk <;> norm_num at hsi ⊢ <;> omega

/-- C2: for every key, `index(key) = (selector(key) << 6) | code(key)`, where
`selector` is the 2-bit value whose bit `i` is 1 iff `key & m_b[i] ≠ 0` (and
coincides with the source's `set_index`), and `code` is the 6-bit value whose
bit `i` is `parity(M[i] & key)` for the mask rows of the partition chosen by
the selector. -/
theorem ultraHash_index_eq_selector_code (st : UltraHash) (key : Nat) :
    selector st key = set_index st key ∧
      index st key = selector st key <<< 6 ||| codeBits (rowsOf st key) key := by
  refine ⟨(set_index_eq_selector st key).symm, ?_⟩
  rw [index_eq_or, codeRows_eq_codeBits, set_index_eq_selector]

/-- C8: `index` is deterministic and side-effect free — the modelled call of the
`const` member function returns the object state unchanged, and a second call
on the resulting state with the same key returns the same value. -/
theorem ultraHash_index_deterministic_pure (st : UltraHash) (key : Nat) :
    (index_call st key).2 = st ∧
      (index_call (index_call st key).2 key).1 = (index_call st key).1 :=
  ⟨rfl, rfl⟩

/-- C9: for fixed mask rows `M`, the 6-bit code is a GF(2)-linear map on 64-bit
keys: `code(a ^^^ b) = code(a) ^^^ code(b)` and `code(0) = 0`. -/
theorem ultraHash_code_gf2_linear (M : Fin 6 → Nat) (a b : Nat)
    (_ha : a < 2 ^ 64) (_hb : b < 2 ^ 64) :
    codeRows M (a ^^^ b) = codeRows M a ^^^ codeRows M b ∧ codeRows M 0 = 0 := by
  constructor
  · have hand : ∀ i : Fin 6,
        parity (M i &&& (a ^^^ b)) = parity (M i &&& a) ^^^ parity (M i &&& b) := by
      intro i
      rw [Nat.and_xor_distrib_left, parity_xor]
    rw [codeRows_unfold, codeRows_unfold, codeRows_unfold,
      hand 0, hand 1, hand 2, hand 3, hand 4, hand 5]
    rw [orchain_eq_xorchain (xor_le_one (parity_le_one _) (parity_le_one _))
        (xor_le_one (parity_le_one _) (parity_le_one _))
        (xor_le_one (parity_le_one _) (parity_le_one _))
        (xor_le_one (parity_le_one _) (parity_le_one _))
        (xor_le_one (parity_le_one _) (parity_le_one _))
        (xor_le_one (parity_le_one _) (parity_le_one _)),
      orchain_eq_xorchain (parity_le_one _) (parity_le_one _) (parity_le_one _)
        (parity_le_one _) (parity_le_one _) (parity_le_one _),
      orchain_eq_xorchain (parity_le_one _) (parity_le_one _) (parity_le_one _)
        (parity_le_one _) (parity_le_one _) (parity_le_one _)]
    rw [xor_shiftLeft, xor_shiftLeft, xor_shiftLeft, xor_shiftLeft, xor_shiftLeft,
      xor_shiftLeft]
    simp only [Nat.xor_assoc]
    simp [Nat.xor_comm, xor_left_comm]
  · simp [codeRows_unfold, parity_zero]

/-- Witness for C9 at concrete rows and keys. -/
theorem ultraHash_code_gf2_linear_witness :
    (3 : Nat) < 2 ^ 64 ∧ (5 : Nat) < 2 ^ 64 ∧
      (codeRows (fun i => 2 ^ (i : Nat)) (3 ^^^ 5) =
          codeRows (fun i => 2 ^ (i : Nat)) 3 ^^^ codeRows (fun i => 2 ^ (i : Nat)) 5 ∧
        codeRows (fun i => 2 ^ (i : Nat)) 0 = 0) :=
  ⟨by decide, by decide,
    ultraHash_code_gf2_linear (fun i => 2 ^ (i : Nat)) 3 5 (by decide) (by decide)⟩

/-- C10: unconditionally — for every key and every possible mask state,
including the default-constructed one — `set_index` is below 4 and `index` is
below 256. -/
theorem ultraHash_bounds_unconditional (st : UltraHash) (key : Nat) :
    set_index st key < 4 ∧ index st key < 256 := by
  refine ⟨set_index_lt_four st key, ?_⟩
  have hsi := set_index_lt_four st key
  have hc := codeRows_lt (rowsOf st key) key
  rw [index_eq_add]
  omega

/-- C1: on every distinct key set on which the modelled construction succeeds,
`index` is injective on the keys and maps each of them into `[0, table_size)`. -/
theorem ultraHash_index_injective_on_keys (pre post : UltraHash)
    (keys ka : List Nat) (ts : Nat) (_hnd : keys.Nodup)
    (h : initRel pre keys post (InitResult.ok ts) ka) :
    (∀ a ∈ keys, ∀ b ∈ keys, a ≠ b → index post a ≠ index post b) ∧
      ∀ a ∈ keys, index post a < ts := by
  obtain ⟨-, -, -, -, hok⟩ := h
  obtain ⟨hlen, k, htier, hinit⟩ := hok rfl
  have hinit' : initOK keys (k : Nat) post ts := hinit
  constructor
  · intro a ha b hb hne heq
    obtain ⟨hk2, -, hts, hmask, -, -, hinj⟩ := hinit'
    have hca := codeRows_lt (rowsOf post a) a
    have hcb := codeRows_lt (rowsOf post b) b
    rw [index_eq_add, index_eq_add] at heq
    have hsi : set_index post a = set_index post b := by omega
    exact hinj a ha b hb hne hsi (by omega)
  · intro a ha
    exact index_lt_of_initOK hinit' a

/-- Witness for C1 on the key set `[10, 11]`. -/
theorem ultraHash_index_injective_on_keys_witness :
    ([10, 11] : List Nat).Nodup ∧
      initRel stZero [10, 11] stOneBit (InitResult.ok 64) [10, 11] ∧
      ((∀ a ∈ ([10, 11] : List Nat), ∀ b ∈ ([10, 11] : List Nat),
          a ≠ b → index stOneBit a ≠ index stOneBit b) ∧
        ∀ a ∈ ([10, 11] : List Nat), index stOneBit a < 64) :=
  ⟨by decide, by decide,
    ultraHash_index_injective_on_keys stZero stOneBit [10, 11] [10, 11] 64
      (by decide) (by decide)⟩

/-- C3: after a successful construction, `index` is total and in range on every
64-bit key, also on keys that were not part of the construction input; the
lookup path has no error case (the embedded `index` is a total function). -/
theorem ultraHash_index_total_in_range (pre post : UltraHash)
    (keys ka : List Nat) (ts : Nat)
    (h : initRel pre keys post (InitResult.ok ts) ka) (key : Nat) :
    index post key < ts := by
  obtain ⟨-, -, -, -, hok⟩ := h
  obtain ⟨-, k, -, hinit⟩ := hok rfl
  exact index_lt_of_initOK (show initOK keys (k : Nat) post ts from hinit) key

/-- Witness for C3: a key (999) outside the construction input `[2, 3]` still
maps below the table size. -/
theorem ultraHash_index_total_in_range_witness :
    initRel stZero [2, 3] stOneBit (InitResult.ok 64) [2, 3] ∧
      index stOneBit 999 < 64 :=
  ⟨by decide,
    ultraHash_index_total_in_range stZero stOneBit [2, 3] [2, 3] 64 (by decide) 999⟩

/-- C4: the table size of a successful construction is fixed by the key-count
tier: with the zero-test-bit attempt succeeding (observable as `m_b[0] = 0`)
the size is 64; `64 < |K| ≤ 128` forces 128; `128 < |K| (≤ 256)` forces 256;
and in general the size is `2^k * 64` for the number `k` of test bits used. -/
theorem ultraHash_table_size_tiers (pre post : UltraHash)
    (keys ka : List Nat) (ts : Nat)
    (h : initRel pre keys post (InitResult.ok ts) ka) :
    (keys.length ≤ 64 → post.m_b 0 = 0 → ts = 64) ∧
      (64 < keys.length → keys.length ≤ 128 → ts = 128) ∧
      (128 < keys.length → ts = 256) ∧
      ∃ k : Fin 3, ts = 2 ^ (k : Nat) * 64 := by
  obtain ⟨-, -, -, -, hok⟩ := h
  obtain ⟨hlen, k, ⟨hmin, hexact⟩, hinit⟩ := hok rfl
  obtain ⟨hk2, hlen', hts, hmask, -, -, -⟩ := hinit
  have hts' : ts = 2 ^ (k : Nat) * 64 := hts
  refine ⟨?_, ?_, ?_, ⟨k, hts'⟩⟩
  · intro hn hb0
    have hk0 : (k : Nat) = 0 := by
      by_contra hne
      obtain ⟨p, hp⟩ := (hmask 0).1 (by omega)
      rw [hb0] at hp
      have := Nat.two_pow_pos (p : Nat)
      omega
    rw [hts', hk0]
    norm_num
  · intro hlo hhi
    have hmt : minTestBits keys.length = 1 := by
      unfold minTestBits
      rw [if_neg (by omega), if_pos (by omega)]
    rw [hts', hexact hlo, hmt]
    norm_num
  · intro hlo
    have hmt : minTestBits keys.length = 2 := by
      unfold minTestBits
      rw [if_neg (by omega), if_neg (by omega)]
    rw [hts', hexact (by omega), hmt]
    norm_num

/-- Witness for C4 on the key set `[4, 5]` with table size 64. -/
theorem ultraHash_table_size_tiers_witness :
    initRel stZero [4, 5] stOneBit (InitResult.ok 64) [4, 5] ∧
      ((([4, 5] : List Nat).length ≤ 64 → stOneBit.m_b 0 = 0 → 64 = 64) ∧
        (64 < ([4, 5] : List Nat).length → ([4, 5] : List Nat).length ≤ 128 → 64 = 128) ∧
        (128 < ([4, 5] : List Nat).length → 64 = 256) ∧
        ∃ k : Fin 3, 64 = 2 ^ (k : Nat) * 64) := by
  have h : initRel stZero [4, 5] stOneBit (InitResult.ok 64) [4, 5] := by decide
  exact ⟨h, ultraHash_table_size_tiers stZero stOneBit [4, 5] [4, 5] 64 h⟩

/-- C5: an input of more than 256 keys is rejected with `KeySetTooLarge`. -/
theorem ultraHash_oversize_rejected (pre post : UltraHash)
    (keys ka : List Nat) (r : InitResult) (hlen : 256 < keys.length)
    (h : initRel pre keys post r ka) :
    r = InitResult.err ConstructionError.KeySetTooLarge :=
  (h.2.1 hlen).2

set_option maxRecDepth 4000 in
/-- Witness for C5 on a 257-key input. -/
theorem ultraHash_oversize_rejected_witness :
    256 < (List.range 257).length ∧
      initRel stZero (List.range 257) stZero
        (InitResult.err ConstructionError.KeySetTooLarge) (List.range 257) ∧
      InitResult.err ConstructionError.KeySetTooLarge =
        InitResult.err ConstructionError.KeySetTooLarge := by
  have hlen : 256 < (List.range 257).length := by decide
  have h : initRel stZero (List.range 257) stZero
      (InitResult.err ConstructionError.KeySetTooLarge) (List.range 257) := by decide
  exact ⟨hlen, h, ultraHash_oversize_rejected stZero stZero (List.range 257)
    (List.range 257) _ hlen h⟩

/-- C6: construction is atomic on failure — after a failing call the structure's
state is unchanged. -/
theorem ultraHash_atomic_on_failure (pre post : UltraHash)
    (keys ka : List Nat) (e : ConstructionError)
    (h : initRel pre keys post (InitResult.err e) ka) :
    post = pre :=
  h.2.2.2.1 rfl

/-- Witness for C6 on a failing construction over the empty key list. -/
theorem ultraHash_atomic_on_failure_witness :
    initRel stZero [] stZero (InitResult.err ConstructionError.ConstructionFailure) [] ∧
      stZero = stZero :=
  ⟨by decide,
    ultraHash_atomic_on_failure stZero stZero [] []
      ConstructionError.ConstructionFailure (by decide)⟩

/-- C7: the caller-supplied key sequence is unchanged by construction, whether
it succeeds or fails. -/
theorem ultraHash_caller_keys_unchanged (pre post : UltraHash)
    (keys ka : List Nat) (r : InitResult)
    (h : initRel pre keys post r ka) :
    ka = keys :=
  h.1

/-- Witness for C7 on the one-key input `[7]`. -/
theorem ultraHash_caller_keys_unchanged_witness :
    initRel stZero [7] stZero (InitResult.err ConstructionError.ConstructionFailure) [7] ∧
      ([7] : List Nat) = [7] :=
  ⟨by decide,
    ultraHash_caller_keys_unchanged stZero stZero [7] [7]
      (InitResult.err ConstructionError.ConstructionFailure) (by decide)⟩

end UltraHashModel
